import Mathlib

/-!
Verification development for the realtime connectivity core of the
pnftradingapi_py repository.

The definitions below are a shallow embedding of the two source files that
implement the core:

  src/adapters/ctrader.py        (class CTraderAdapter)
  src/adapters/dnse_realtime.py  (class DNSERealtimeManager)

Python dictionaries are modelled as association lists, Python sets as
duplicate-free lists, asyncio futures in the pending-request table by their
done flag, and the awaited outcome of asyncio.wait_for by an explicit
oracle value (a matching response payload, or deadline expiry).  Outbound
network traffic is recorded as an explicit action trace instead of being
performed.
-/

/-- Observable Python exception classes raised by the adapter code paths
modelled here.  The generic built-in Exception with its message string is
kept distinct from the built-in TimeoutError class. -/
inductive PyError where
  | exception (msg : String)
  | timeoutError
deriving DecidableEq, Repr

/-! ### Association lists: the model of Python dict -/

/-- Lookup of a key in an association list, first occurrence wins.  Models
Python dict read access. -/
def alookup {α β : Type} [DecidableEq α] (k : α) : List (α × β) → Option β
  | [] => none
  | (k₁, v) :: rest => if k₁ = k then some v else alookup k rest

/-- Removal of a key from an association list.  Models Python dict.pop /
del for a dict whose keys are unique. -/
def aerase {α β : Type} [DecidableEq α] (k : α) : List (α × β) → List (α × β)
  | [] => []
  | (k₁, v) :: rest => if k₁ = k then aerase k rest else (k₁, v) :: aerase k rest

/-- Update or insert of a key.  Models Python dict assignment d[k] = v. -/
def aset {α β : Type} [DecidableEq α] (k : α) (v : β) : List (α × β) → List (α × β)
  | [] => [(k, v)]
  | (k₁, v₁) :: rest => if k₁ = k then (k, v) :: rest else (k₁, v₁) :: aset k v rest

theorem alookup_aset_self {α β : Type} [DecidableEq α] (k : α) (v : β) (l : List (α × β)) :
    alookup k (aset k v l) = some v := by
  induction l with
  | nil => simp [aset, alookup]
  | cons p rest ih =>
    obtain ⟨k₁, v₁⟩ := p
    by_cases h : k₁ = k
    · simp [aset, h, alookup]
    · simp [aset, h, alookup, ih]

theorem alookup_aset_ne {α β : Type} [DecidableEq α] {k k₁ : α} (v : β) (l : List (α × β))
    (h : k₁ ≠ k) : alookup k₁ (aset k v l) = alookup k₁ l := by
  have hk : k ≠ k₁ := Ne.symm h
  induction l with
  | nil => simp [aset, alookup, hk]
  | cons p rest ih =>
    obtain ⟨k₂, v₂⟩ := p
    by_cases h₂ : k₂ = k
    · subst h₂
      simp [aset, alookup, hk]
    · simp [aset, alookup, h₂, ih]

theorem alookup_aerase {α β : Type} [DecidableEq α] (k k₁ : α) (l : List (α × β)) :
    alookup k₁ (aerase k l) = if k₁ = k then none else alookup k₁ l := by
  induction l with
  | nil => simp [aerase, alookup]
  | cons p rest ih =>
    obtain ⟨k₂, v₂⟩ := p
    by_cases h₂ : k₂ = k
    · subst h₂
      by_cases h₁ : k₁ = k₂
      · subst h₁
        simp [aerase, alookup, ih]
      · simp [aerase, alookup, h₁, Ne.symm h₁, ih]
    · by_cases h₁ : k₁ = k
      · subst h₁
        simp [aerase, alookup, h₂, ih]
      · simp [aerase, alookup, h₂, h₁, ih]

theorem mem_aerase {α β : Type} [DecidableEq α] {k : α} {p : α × β} {l : List (α × β)}
    (h : p ∈ aerase k l) : p ∈ l ∧ p.1 ≠ k := by
  induction l with
  | nil => simp [aerase] at h
  | cons q rest ih =>
    obtain ⟨k₁, v₁⟩ := q
    by_cases h₁ : k₁ = k
    · subst h₁
      simp only [aerase, if_true, eq_self_iff_true] at h
      have h₂ := ih h
      exact ⟨List.mem_cons_of_mem _ h₂.1, h₂.2⟩
    · simp only [aerase, if_neg h₁, List.mem_cons] at h
      rcases h with h | h
      · subst h
        exact ⟨List.mem_cons_self _ _, h₁⟩
      · have h₂ := ih h
        exact ⟨List.mem_cons_of_mem _ h₂.1, h₂.2⟩

theorem mem_aset {α β : Type} [DecidableEq α] {k : α} {v : β} {p : α × β} {l : List (α × β)}
    (h : p ∈ aset k v l) : p = (k, v) ∨ p ∈ l := by
  induction l with
  | nil => simpa [aset] using h
  | cons q rest ih =>
    obtain ⟨k₁, v₁⟩ := q
    by_cases h₁ : k₁ = k
    · subst h₁
      simp only [aset, if_true, eq_self_iff_true, List.mem_cons] at h
      rcases h with h | h
      · exact Or.inl h
      · exact Or.inr (List.mem_cons_of_mem _ h)
    · simp only [aset, if_neg h₁, List.mem_cons] at h
      rcases h with h | h
      · exact Or.inr (by simp [h])
      · rcases ih h with h | h
        · exact Or.inl h
        · exact Or.inr (List.mem_cons_of_mem _ h)

theorem alookup_mem {α β : Type} [DecidableEq α] {k : α} {v : β} {l : List (α × β)}
    (h : alookup k l = some v) : (k, v) ∈ l := by
  induction l with
  | nil => simp [alookup] at h
  | cons p rest ih =>
    obtain ⟨k₁, v₁⟩ := p
    by_cases h₁ : k₁ = k
    · subst h₁
      simp only [alookup, if_true, eq_self_iff_true, Option.some.injEq] at h
      subst h
      exact List.mem_cons_self _ _
    · simp only [alookup, if_neg h₁] at h
      exact List.mem_cons_of_mem _ (ih h)

theorem alookup_eq_none_of_forall {α β : Type} [DecidableEq α] {k : α} {l : List (α × β)}
    (h : ∀ p ∈ l, p.1 ≠ k) : alookup k l = none := by
  induction l with
  | nil => rfl
  | cons p rest ih =>
    obtain ⟨k₁, v₁⟩ := p
    have hk : k₁ ≠ k := h (k₁, v₁) (List.mem_cons_self _ _)
    simp only [alookup, if_neg hk]
    exact ih fun q hq => h q (List.mem_cons_of_mem _ hq)

theorem forall_ne_of_alookup_eq_none {α β : Type} [DecidableEq α] {k : α} {l : List (α × β)}
    (h : alookup k l = none) : ∀ p ∈ l, p.1 ≠ k := by
  induction l with
  | nil => simp
  | cons p rest ih =>
    obtain ⟨k₁, v₁⟩ := p
    by_cases h₁ : k₁ = k
    · simp [alookup, h₁] at h
    · simp only [alookup, if_neg h₁] at h
      intro q hq
      rcases List.mem_cons.mp hq with h₂ | h₂
      · subst h₂; exact h₁
      · exact ih h q h₂

theorem aerase_of_none {α β : Type} [DecidableEq α] {k : α} {l : List (α × β)}
    (h : alookup k l = none) : aerase k l = l := by
  induction l with
  | nil => rfl
  | cons p rest ih =>
    obtain ⟨k₁, v₁⟩ := p
    by_cases h₁ : k₁ = k
    · simp [alookup, h₁] at h
    · simp only [alookup, if_neg h₁] at h
      simp [aerase, h₁, ih h]

theorem alookup_append {α β : Type} [DecidableEq α] (k : α) (l₁ l₂ : List (α × β)) :
    alookup k (l₁ ++ l₂) =
      match alookup k l₁ with
      | some v => some v
      | none => alookup k l₂ := by
  induction l₁ with
  | nil => simp [alookup]
  | cons p rest ih =>
    obtain ⟨k₁, v₁⟩ := p
    by_cases h₁ : k₁ = k <;> simp [alookup, h₁, ih]

theorem aset_append_fresh {α β : Type} [DecidableEq α] {k : α} {l : List (α × β)}
    (v w : β) (h : alookup k l = none) : aset k v (l ++ [(k, w)]) = l ++ [(k, v)] := by
  induction l with
  | nil => simp [aset]
  | cons p rest ih =>
    obtain ⟨k₁, v₁⟩ := p
    by_cases h₁ : k₁ = k
    · simp [alookup, h₁] at h
    · simp only [alookup, if_neg h₁] at h
      simp [aset, h₁, ih h]

/-! ### cTrader adapter (src/adapters/ctrader.py): data model -/

/-- Abstraction of a ProtoOASymbol message: its id plus one field standing
for the remaining immutable metadata. -/
structure ProtoOASymbol where
  symbolId : Nat
  details : Nat
deriving DecidableEq, Repr

instance : Inhabited ProtoOASymbol := ⟨⟨0, 0⟩⟩

/-- Abstraction of one trendbar record, passed through unchanged by
get_candles. -/
structure Trendbar where
  data : Int
deriving DecidableEq, Repr

/-- Payload of ProtoOASymbolByIdRes. -/
structure SymbolsRes where
  symbol : List ProtoOASymbol
deriving DecidableEq, Repr

/-- Payload of ProtoOAGetTrendbarsRes. -/
structure TrendbarsRes where
  trendbar : List Trendbar
deriving DecidableEq, Repr

/-- The trendbar period enumeration values used by get_candles. -/
inductive ProtoOATrendbarPeriod where
  | M1 | M5 | M15 | H1 | D1
deriving DecidableEq, Repr

/-- Outbound correlated request payloads built by get_symbol_details and
get_candles. -/
inductive OutMsg where
  | symbolByIdReq (ctidTraderAccountId : Int) (symbolId : List Nat)
  | getTrendbarsReq (ctidTraderAccountId : Int) (fromTimestamp toTimestamp : Int)
      (period : ProtoOATrendbarPeriod) (symbolId : Int)
deriving DecidableEq, Repr

/-- Python int(s) for the decimal account id string; the conversion is
abstracted as toInt? with default 0 (the adapter only calls it on the
configured numeric account id). -/
def intOf (s : String) : Int := (s.toInt?).getD 0

/-- The pending-request table _pending_requests: clientMsgId mapped to the
done flag of the asyncio future stored there (false while a caller is
still waiting). -/
abbrev PendingTable := List (String × Bool)

/-- Fire-and-forget requests sent by the session, auth and refresh
handlers (each models one client.send call with the given payload). -/
inductive CtAction where
  | sendRefreshTokenReq (refreshToken : String)
  | sendApplicationAuthReq (clientId clientSecret : String)
  | sendAccountAuthReq (accessToken : String) (ctidTraderAccountId : Int)
  | sendSymbolsListReq (ctidTraderAccountId : Int)
  | sendAccountListReq (accessToken : String)
deriving DecidableEq, Repr

/-- The adapter state: the configuration attributes loaded by load_config
(None is modelled by the empty string, matching Python falsiness), the
session flags, the light and full symbol stores, the pending-request
table, and the content of adapters/config.json (none when the file does
not exist). -/
structure CTraderAdapter where
  client_id : String
  client_secret : String
  access_token : String
  refresh_token : String
  account_id : String
  is_live : Bool
  is_connected : Bool
  is_authorized : Bool
  symbols : List Nat
  full_symbols : List (Nat × ProtoOASymbol)
  pending : PendingTable
  cfgFile : Option (List (String × String))
deriving DecidableEq, Repr

/-! ### Pending-request handling in on_message_received -/

/-- The pending-request block at the top of on_message_received
(ctrader.py lines 124-136): when the inbound clientMsgId is truthy and
present in the table, the entry is popped and, if the future is not yet
done, the payload is scheduled onto the caller loop.  Returns the new
table, whether an entry was removed, and whether a payload was delivered
to a waiting caller. -/
def on_message_pending (tbl : PendingTable) (clientMsgId : String) :
    PendingTable × Bool × Bool :=
  if clientMsgId ≠ "" ∧ (alookup clientMsgId tbl).isSome then
    (aerase clientMsgId tbl, true, ! (alookup clientMsgId tbl).getD true)
  else
    (tbl, false, false)

/-- The timeout branch of get_symbol_details / get_candles:
_pending_requests.pop(req_id, None).  Returns the new table and whether an
entry was actually removed. -/
def timeout_pop (tbl : PendingTable) (req_id : String) : PendingTable × Bool :=
  (aerase req_id tbl, (alookup req_id tbl).isSome)

/-- The two ways the wait on a correlated request can end: the matching
response reaches on_message_received, or the asyncio.wait_for deadline
fires and the timeout branch runs. -/
inductive CorrEvent where
  | response
  | timeout
deriving DecidableEq, Repr

/-- Effect of one completion event on the pending table, for a fixed
correlation id: a response runs the on_message_received pending block, a
deadline expiry runs the pop in the timeout branch.  Returns (table,
entry removed now, payload delivered now). -/
def corrStep (tbl : PendingTable) (id : String) : CorrEvent → PendingTable × Bool × Bool
  | .response => on_message_pending tbl id
  | .timeout =>
      let (tbl₁, removed) := timeout_pop tbl id
      (tbl₁, removed, false)

/-- Folds a sequence of completion events for one correlation id over the
pending table, counting how many events removed the entry and how many
delivered a payload. -/
def runCorr (tbl : PendingTable) (id : String) : List CorrEvent → PendingTable × Nat × Nat
  | [] => (tbl, 0, 0)
  | e :: es =>
      let (tbl₁, removed, delivered) := corrStep tbl id e
      let (tblF, rs, ds) := runCorr tbl₁ id es
      (tblF, (if removed then 1 else 0) + rs, (if delivered then 1 else 0) + ds)

/-! ### The correlated request paths -/

/-- Steps of a correlated request that touch the pending table or hand a
message to the foreign (Twisted reactor) domain, in program order. -/
inductive TraceAction where
  | register (clientMsgId : String)
  | send (clientMsgId : String) (msg : OutMsg)
deriving DecidableEq, Repr

def isSendFor (id : String) : TraceAction → Bool
  | .send i _ => i = id
  | .register _ => false

/-- Decides that the trace registers the id strictly before any send for
it and that a send for it does occur. -/
def registeredBeforeSent (id : String) : List TraceAction → Bool
  | [] => false
  | .send i _ :: rest => if i = id then false else registeredBeforeSent id rest
  | .register i :: rest => if i = id then rest.any (isSendFor id) else registeredBeforeSent id rest

/-- Outcome of awaiting asyncio.wait_for on the request future: either the
matching response payload arrived in time, or the deadline elapsed. -/
inductive AwaitOutcome (α : Type) where
  | result (payload : α)
  | timedOut
deriving DecidableEq, Repr

deriving instance DecidableEq for Except

/-- Result triple of a correlated request call: the value returned or the
exception raised, the adapter state after the call, and the trace of
pending-table registrations and sends performed by the call. -/
structure CallResult (α : Type) where
  result : Except PyError α
  state : CTraderAdapter
  trace : List TraceAction
deriving DecidableEq, Repr

/-- Cache merge loop of get_symbol_details: for sym in res.symbol,
full_symbols[sym.symbolId] = sym. -/
def mergeSymbols (cache : List (Nat × ProtoOASymbol)) :
    List ProtoOASymbol → List (Nat × ProtoOASymbol)
  | [] => cache
  | s :: rest => mergeSymbols (aset s.symbolId s cache) rest

/-- Shallow embedding of CTraderAdapter.get_symbol_details (ctrader.py
lines 210-240).  req_id stands for the fresh uuid4 string and outcome for
what awaiting the future yields.  On a response the pending entry has
already been popped by on_message_received; on a timeout the except
branch pops it and re-raises a plain Exception. -/
def get_symbol_details (st : CTraderAdapter) (req_id : String) (symbol_ids : List Nat)
    (outcome : AwaitOutcome SymbolsRes) : CallResult (List ProtoOASymbol) :=
  if st.is_authorized = false then
    ⟨.error (.exception "cTrader not authorized"), st, []⟩
  else
    let missing := symbol_ids.filter (fun sid => (alookup sid st.full_symbols).isNone)
    if missing = [] then
      ⟨.ok (symbol_ids.map (fun sid => (alookup sid st.full_symbols).getD default)), st, []⟩
    else
      let st₁ := { st with pending := st.pending ++ [(req_id, false)] }
      let tr := [TraceAction.register req_id,
                 TraceAction.send req_id (.symbolByIdReq (intOf st.account_id) missing)]
      match outcome with
      | .result res =>
          let cache₁ := mergeSymbols st₁.full_symbols res.symbol
          let st₂ := { st₁ with
                        pending := (on_message_pending st₁.pending req_id).1,
                        full_symbols := cache₁ }
          ⟨.ok (symbol_ids.filterMap (fun sid => alookup sid cache₁)), st₂, tr⟩
      | .timedOut =>
          let st₂ := { st₁ with pending := (timeout_pop st₁.pending req_id).1 }
          ⟨.error (.exception "Timeout fetching symbol details"), st₂, tr⟩

/-- The period_map dictionary lookup with default H1 in get_candles. -/
def period_map (period : String) : ProtoOATrendbarPeriod :=
  if period.toLower = "m1" then .M1
  else if period.toLower = "m5" then .M5
  else if period.toLower = "m15" then .M15
  else if period.toLower = "h1" then .H1
  else if period.toLower = "d1" then .D1
  else .H1

/-- Shallow embedding of CTraderAdapter.get_candles (ctrader.py lines
242-278), analogous to get_symbol_details but without a cache. -/
def get_candles (st : CTraderAdapter) (req_id : String) (symbol_id : Int) (period : String)
    (from_ts to_ts : Int) (outcome : AwaitOutcome TrendbarsRes) : CallResult (List Trendbar) :=
  if st.is_authorized = false then
    ⟨.error (.exception "cTrader not authorized yet"), st, []⟩
  else
    let st₁ := { st with pending := st.pending ++ [(req_id, false)] }
    let tr := [TraceAction.register req_id,
               TraceAction.send req_id
                 (.getTrendbarsReq (intOf st.account_id) (from_ts * 1000) (to_ts * 1000)
                   (period_map period) symbol_id)]
    match outcome with
    | .result res =>
        ⟨.ok res.trendbar,
         { st₁ with pending := (on_message_pending st₁.pending req_id).1 }, tr⟩
    | .timedOut =>
        ⟨.error (.exception "Timeout waiting for cTrader response"),
         { st₁ with pending := (timeout_pop st₁.pending req_id).1 }, tr⟩

/-! ### Session, auth and refresh handling (ctrader.py lines 79-208) -/

/-- The inbound payload kinds dispatched by the general-handler chain of
on_message_received, keyed by payloadType. -/
inductive InPayload where
  | applicationAuthRes
  | getAccountsByAccessTokenRes
  | accountAuthRes
  | symbolsListRes (symbol : List Nat)
  | refreshTokenRes (accessToken refreshToken : String)
  | errorRes (errorCode descr : String)
  | other
deriving DecidableEq, Repr

/-- CTraderAdapter.update_tokens_in_file: stores the two new tokens on the
instance and, when adapters/config.json exists, rewrites its two token
keys (any file error is swallowed and only logged). -/
def update_tokens_in_file (st : CTraderAdapter) (new_access_token new_refresh_token : String) :
    CTraderAdapter :=
  let st₁ := { st with access_token := new_access_token,
                       refresh_token := new_refresh_token }
  match st₁.cfgFile with
  | none => st₁
  | some data =>
      { st₁ with cfgFile := some (aset "ctrader_refresh_token" new_refresh_token
          (aset "ctrader_access_token" new_access_token data)) }

/-- CTraderAdapter.refresh_access_token: one refresh request is handed to
the reactor, unless no refresh token is stored. -/
def refresh_access_token (st : CTraderAdapter) : List CtAction :=
  if st.refresh_token = "" then [] else [.sendRefreshTokenReq st.refresh_token]

/-- CTraderAdapter.authorize_account. -/
def authorize_account (st : CTraderAdapter) : List CtAction :=
  if st.access_token = "" ∨ st.account_id = "" then []
  else [.sendAccountAuthReq st.access_token (intOf st.account_id)]

/-- CTraderAdapter.fetch_symbols. -/
def fetch_symbols (st : CTraderAdapter) : List CtAction :=
  if st.account_id = "" then [] else [.sendSymbolsListReq (intOf st.account_id)]

/-- CTraderAdapter.fetch_account_list. -/
def fetch_account_list (st : CTraderAdapter) : List CtAction :=
  if st.access_token = "" then [] else [.sendAccountListReq st.access_token]

/-- The general-handler chain of on_message_received (ctrader.py lines
139-165): lifecycle transitions, the symbol stores, the token-refresh
completion, and the error branch that triggers a refresh exactly for the
two authentication-expiry error codes. -/
def general_handlers (st : CTraderAdapter) : InPayload → CTraderAdapter × List CtAction
  | .applicationAuthRes => (st, fetch_account_list st ++ authorize_account st)
  | .getAccountsByAccessTokenRes => (st, [])
  | .accountAuthRes =>
      let st₁ := { st with is_authorized := true }
      (st₁, fetch_symbols st₁)
  | .symbolsListRes syms => ({ st with symbols := syms }, [])
  | .refreshTokenRes a r =>
      let st₁ := update_tokens_in_file st a r
      (st₁, authorize_account st₁)
  | .errorRes code _ =>
      (st, if code = "CH_ACCESS_TOKEN_INVALID" ∨ code = "OA_AUTH_TOKEN_EXPIRED" then
             refresh_access_token st
           else [])
  | .other => (st, [])

/-- Shallow embedding of CTraderAdapter.on_message_received: the pending
block first, then the general handlers.  Returns the new state, the
fire-and-forget requests issued, and whether a payload was delivered to a
waiting correlated caller. -/
def on_message_received (st : CTraderAdapter) (clientMsgId : String) (p : InPayload) :
    CTraderAdapter × List CtAction × Bool :=
  let pres := on_message_pending st.pending clientMsgId
  let st₁ := { st with pending := pres.1 }
  let gres := general_handlers st₁ p
  (gres.1, gres.2, pres.2.2)

/-! ### Token write-back as seen by a concurrent reader (ctrader.py 79-94) -/

/-- File content as a character sequence. -/
abbrev FileContent := List Char

/-- Content of config.json after json.dump has overwritten the file in
place from position 0 but before f.truncate() has run: the new
serialization followed by whatever tail of the old content it did not
cover. -/
def overwrite_in_place (old new : FileContent) : FileContent :=
  new ++ old.drop new.length

/-- The sequence of file contents a concurrent reader of config.json can
observe during update_tokens_in_file, which opens the file in r+ mode,
json.loads it, seeks to 0, json.dumps the updated mapping over the old
bytes and finally truncates: the original content, the overwritten but
not yet truncated content, and the final content. -/
def update_tokens_file_states (old new : FileContent) : List FileContent :=
  [old, overwrite_in_place old new, new]

/-- Formalization of the claim that the write-back never exposes a partial
file: every observable intermediate state is the old or the new content. -/
def NoPartialWriteVisible (old new : FileContent) : Prop :=
  ∀ s ∈ update_tokens_file_states old new, s = old ∨ s = new

/-! ### DNSE realtime manager (src/adapters/dnse_realtime.py) -/

/-- The subscription registry state of DNSERealtimeManager: the
subscribers dict (symbol to the set of registered callback handles), the
active_subscriptions set, the connection flag, and whether the MQTT
client object exists. -/
structure DNSERealtimeManager where
  subscribers : List (String × List Nat)
  active_subscriptions : List String
  is_connected : Bool
  hasClient : Bool
deriving DecidableEq, Repr

/-- The manager state right after _init. -/
def emptyManager : DNSERealtimeManager :=
  { subscribers := [], active_subscriptions := [], is_connected := false, hasClient := false }

/-- Python set.add on a set modelled as a duplicate-free list. -/
def setAdd {α : Type} [DecidableEq α] (x : α) (l : List α) : List α :=
  if x ∈ l then l else l ++ [x]

/-- The TOPIC_TICK format string applied to a symbol. -/
def topic_tick (symbol : String) : String :=
  "plaintext/quotes/krx/mdds/tick/v1/roundlot/symbol/" ++ symbol

/-- DNSERealtimeManager._subscribe_mqtt: issues the upstream MQTT
subscribe for the symbol topic when a client exists and is connected. -/
def subscribe_mqtt (st : DNSERealtimeManager) (symbol : String) : List String :=
  if st.hasClient ∧ st.is_connected then [topic_tick symbol] else []

/-- DNSERealtimeManager.subscribe: on the first listener for a symbol,
creates the empty listener set, flags the symbol upstream-subscribed and
issues the MQTT subscribe; then registers the callback in the set.
Returns the new state and the upstream subscribe requests issued. -/
def subscribe (st : DNSERealtimeManager) (symbol : String) (callback : Nat) :
    DNSERealtimeManager × List String :=
  if (alookup symbol st.subscribers).isNone then
    let st₁ := { st with subscribers := st.subscribers ++ [(symbol, [])],
                         active_subscriptions := setAdd symbol st.active_subscriptions }
    let acts := subscribe_mqtt st₁ symbol
    let ls := (alookup symbol st₁.subscribers).getD []
    ({ st₁ with subscribers := aset symbol (setAdd callback ls) st₁.subscribers }, acts)
  else
    let ls := (alookup symbol st.subscribers).getD []
    ({ st with subscribers := aset symbol (setAdd callback ls) st.subscribers }, [])

/-- DNSERealtimeManager.unsubscribe: discards the callback; when the
listener set becomes empty the symbol entry is deleted and the symbol is
discarded from active_subscriptions (the upstream MQTT unsubscribe is
intentionally left commented out in the source). -/
def unsubscribe (st : DNSERealtimeManager) (symbol : String) (callback : Nat) :
    DNSERealtimeManager :=
  match alookup symbol st.subscribers with
  | none => st
  | some ls =>
      let ls₁ := ls.filter (fun c => c ≠ callback)
      if ls₁ = [] then
        { st with subscribers := aerase symbol st.subscribers,
                  active_subscriptions := st.active_subscriptions.filter (fun s => s ≠ symbol) }
      else
        { st with subscribers := aset symbol ls₁ st.subscribers }

/-- DNSERealtimeManager._on_connect: on result code 0 the connection flag
is set and an upstream subscribe is re-issued for every symbol in
active_subscriptions.  Returns the new state and the topics subscribed. -/
def on_connect (st : DNSERealtimeManager) (rc : Nat) : DNSERealtimeManager × List String :=
  if rc = 0 then
    let st₁ := { st with is_connected := true }
    (st₁, (st₁.active_subscriptions.map (fun sym => subscribe_mqtt st₁ sym)).flatten)
  else
    (st, [])

/-- DNSERealtimeManager._on_disconnect. -/
def on_disconnect (st : DNSERealtimeManager) : DNSERealtimeManager :=
  { st with is_connected := false }

/-- The loop body of _broadcast: iterate over the listener snapshot,
invoke each callback (run gives the outcome of awaiting it on the given
payload) and swallow any exception it raises.  Returns, per listener in
order, the callback handle and the swallowed error, if one was raised. -/
def broadcastLoop (run : Nat → Except String Unit) : List Nat → List (Nat × Option String)
  | [] => []
  | cb :: rest =>
      match run cb with
      | .ok _ => (cb, none) :: broadcastLoop run rest
      | .error e => (cb, some e) :: broadcastLoop run rest

/-- DNSERealtimeManager._broadcast: when the symbol has an entry in the
subscribers dict, deliver to a snapshot copy (list(...)) of its current
listener set; a symbol without an entry delivers to nobody. -/
def broadcast (st : DNSERealtimeManager) (symbol : String) (run : Nat → Except String Unit) :
    List (Nat × Option String) :=
  match alookup symbol st.subscribers with
  | none => []
  | some listeners => broadcastLoop run listeners

/-- Operations that drive the registry between observable states. -/
inductive RegistryOp where
  | sub (symbol : String) (callback : Nat)
  | unsub (symbol : String) (callback : Nat)
  | connect (rc : Nat)
  | disconnect
deriving DecidableEq, Repr

def applyOp (st : DNSERealtimeManager) : RegistryOp → DNSERealtimeManager
  | .sub s cb => (subscribe st s cb).1
  | .unsub s cb => unsubscribe st s cb
  | .connect rc => (on_connect st rc).1
  | .disconnect => on_disconnect st

def runOps (st : DNSERealtimeManager) (ops : List RegistryOp) : DNSERealtimeManager :=
  ops.foldl applyOp st

/-- Registry invariant: every stored listener set is nonempty, and a
symbol is flagged upstream-subscribed (member of active_subscriptions)
exactly when it has an entry in the subscribers dict. -/
def RegistryInv (st : DNSERealtimeManager) : Prop :=
  (∀ p ∈ st.subscribers, p.2 ≠ []) ∧
  (∀ s ∈ st.active_subscriptions, (alookup s st.subscribers).isSome) ∧
  (∀ p ∈ st.subscribers, p.1 ∈ st.active_subscriptions)

instance (st : DNSERealtimeManager) : Decidable (RegistryInv st) := by
  unfold RegistryInv
  infer_instance

/-! ### Correlation-table lemmas -/

theorem on_message_pending_absent (tbl : PendingTable) (id : String)
    (h : alookup id tbl = none) : on_message_pending tbl id = (tbl, false, false) := by
  simp [on_message_pending, h]

theorem corrStep_absent (tbl : PendingTable) (id : String) (e : CorrEvent)
    (h : alookup id tbl = none) : corrStep tbl id e = (tbl, false, false) := by
  cases e
  · simp [corrStep, on_message_pending_absent tbl id h]
  · simp [corrStep, timeout_pop, h, aerase_of_none h]

theorem corrStep_present (tbl : PendingTable) (id : String) (e : CorrEvent) (d : Bool)
    (hid : id ≠ "") (h : alookup id tbl = some d) :
    (corrStep tbl id e).2.1 = true ∧ alookup id (corrStep tbl id e).1 = none := by
  cases e
  · constructor
    · simp [corrStep, on_message_pending, hid, h]
    · simp [corrStep, on_message_pending, hid, h, alookup_aerase]
  · constructor
    · simp [corrStep, timeout_pop, h]
    · simp [corrStep, timeout_pop, alookup_aerase]

theorem runCorr_absent (tbl : PendingTable) (id : String) (evs : List CorrEvent)
    (h : alookup id tbl = none) : runCorr tbl id evs = (tbl, 0, 0) := by
  induction evs with
  | nil => rfl
  | cons e es ih => simp [runCorr, corrStep_absent tbl id e h, ih]

/-- From a registered, not yet completed entry, any nonempty sequence of
completion events removes the entry exactly once and leaves it absent. -/
theorem runCorr_registered (tbl : PendingTable) (id : String) (d : Bool)
    (hid : id ≠ "") (h : alookup id tbl = some d) (evs : List CorrEvent)
    (hevs : evs ≠ []) :
    (runCorr tbl id evs).2.1 = 1 ∧ alookup id (runCorr tbl id evs).1 = none := by
  cases evs with
  | nil => exact absurd rfl hevs
  | cons e es =>
    have hstep := corrStep_present tbl id e d hid h
    rcases hc : corrStep tbl id e with ⟨tbl₁, removed, delivered⟩
    rw [hc] at hstep
    obtain ⟨hrem, habs⟩ := hstep
    simp only at hrem habs
    have hrest := runCorr_absent tbl₁ id es habs
    simp [runCorr, hc, hrest, hrem, habs]

/-- Regardless of the starting table and the event sequence, at most one
event delivers a payload to the waiting caller. -/
theorem runCorr_deliveries_le_one (tbl : PendingTable) (id : String)
    (evs : List CorrEvent) : (runCorr tbl id evs).2.2 ≤ 1 := by
  induction evs generalizing tbl with
  | nil => simp [runCorr]
  | cons e es ih =>
    rcases hc : corrStep tbl id e with ⟨tbl₁, removed, delivered⟩
    cases hdel : delivered
    · have h₁ := ih tbl₁
      simpa [runCorr, hc, hdel] using h₁
    · have habs : alookup id tbl₁ = none := by
        cases e with
        | timeout =>
            simp [corrStep, timeout_pop] at hc
            rw [← hc.1]
            simp [alookup_aerase]
        | response =>
            by_cases hcond : id ≠ "" ∧ (alookup id tbl).isSome
            · simp [corrStep, on_message_pending, hcond] at hc
              rw [← hc.1]
              simp [alookup_aerase]
            · simp [corrStep, on_message_pending, hcond] at hc
              subst hdel
              simp at hc
      have hrest := runCorr_absent tbl₁ id es habs
      simp [runCorr, hc, hdel, hrest]

/-! ### Sample states for concrete instantiations -/

/-- A fully configured, account-authorized adapter with symbol 2 cached
and no outstanding requests. -/
def sampleAdapter : CTraderAdapter :=
  { client_id := "client", client_secret := "secret", access_token := "acc-token",
    refresh_token := "ref-token", account_id := "12345", is_live := false,
    is_connected := true, is_authorized := true, symbols := [],
    full_symbols := [(2, ⟨2, 20⟩)], pending := [],
    cfgFile := some [("ctrader_access_token", "acc-token"),
                     ("ctrader_refresh_token", "ref-token")] }

/-! ### Claim C1 -/

/-- C1: for every request issued through the correlation mechanism
(get_symbol_details, get_candles), the correlation id is registered in the
pending-request table strictly before the tagged message is handed to the
reactor for sending; and once registered, a nonempty sequence of
completion events (the matching response reaching on_message_received, or
deadline expiry running the timeout handler) removes the table entry
exactly once — never twice, and not zero times given that asyncio.wait_for
guarantees one of the two events occurs. -/
theorem c1_registered_before_send_and_removed_exactly_once
    (st : CTraderAdapter) (hauth : st.is_authorized = true)
    (rid : String) (ids : List Nat)
    (hmiss : ids.filter (fun sid => (alookup sid st.full_symbols).isNone) ≠ [])
    (out : AwaitOutcome SymbolsRes)
    (rid₂ : String) (sym : Int) (per : String) (f t : Int)
    (out₂ : AwaitOutcome TrendbarsRes)
    (tbl : PendingTable) (id : String) (hid : id ≠ "")
    (hreg : alookup id tbl = some false)
    (evs : List CorrEvent) (hevs : evs ≠ []) :
    registeredBeforeSent rid (get_symbol_details st rid ids out).trace = true ∧
    registeredBeforeSent rid₂ (get_candles st rid₂ sym per f t out₂).trace = true ∧
    (runCorr tbl id evs).2.1 = 1 ∧
    alookup id (runCorr tbl id evs).1 = none := by
  have hrun := runCorr_registered tbl id false hid hreg evs hevs
  refine ⟨?_, ?_, hrun.1, hrun.2⟩
  · cases out <;> simp [get_symbol_details, hauth, hmiss, registeredBeforeSent, isSendFor]
  · cases out₂ <;> simp [get_candles, hauth, registeredBeforeSent, isSendFor]

theorem c1_witness :
    registeredBeforeSent "r1" (get_symbol_details sampleAdapter "r1" [1] .timedOut).trace = true ∧
    registeredBeforeSent "r2" (get_candles sampleAdapter "r2" 5 "m1" 0 9 .timedOut).trace = true ∧
    (runCorr [("k", false)] "k" [CorrEvent.response]).2.1 = 1 ∧
    alookup "k" (runCorr [("k", false)] "k" [CorrEvent.response]).1 = none :=
  c1_registered_before_send_and_removed_exactly_once sampleAdapter rfl "r1" [1]
    (by decide) .timedOut "r2" 5 "m1" 0 9 .timedOut
    [("k", false)] "k" (by decide) rfl [CorrEvent.response] (by decide)

/-! ### Claim C2 -/

/-- Helper: no branch of the general handlers touches the pending table. -/
theorem general_handlers_pending (st : CTraderAdapter) (p : InPayload) :
    (general_handlers st p).1.pending = st.pending := by
  cases p <;> simp [general_handlers, update_tokens_in_file]
  case refreshTokenRes a r => cases st.cfgFile <;> simp

/-- C2: an inbound response whose clientMsgId is absent from the
pending-request table is silently dropped by on_message_received — the
handler (a total function here, so nothing is raised) delivers no payload
and leaves the table unchanged; and across any sequence of completion
events, payload delivery for a correlation id happens at most once. -/
theorem c2_unmatched_response_silently_dropped
    (st : CTraderAdapter) (cid : String) (p : InPayload)
    (h : alookup cid st.pending = none) :
    (on_message_received st cid p).2.2 = false ∧
    (on_message_received st cid p).1.pending = st.pending ∧
    (∀ tbl id evs, (runCorr tbl id evs).2.2 ≤ 1) := by
  refine ⟨?_, ?_, fun tbl id evs => runCorr_deliveries_le_one tbl id evs⟩
  · simp [on_message_received, on_message_pending_absent st.pending cid h]
  · rw [show (on_message_received st cid p).1 =
        (general_handlers { st with pending := (on_message_pending st.pending cid).1 } p).1
      from rfl]
    rw [general_handlers_pending]
    simp [on_message_pending_absent st.pending cid h]

theorem c2_witness :
    (on_message_received sampleAdapter "zzz" .other).2.2 = false ∧
    (on_message_received sampleAdapter "zzz" .other).1.pending = sampleAdapter.pending ∧
    (∀ tbl id evs, (runCorr tbl id evs).2.2 ≤ 1) :=
  c2_unmatched_response_silently_dropped sampleAdapter "zzz" .other rfl

/-! ### Claim C3 (corrected) -/

/-- C3 counterexample: when the deadline elapses, the caller of
get_candles does not observe a TimeoutError — the adapter catches
asyncio.TimeoutError and raises a plain Exception with a timeout message
instead. -/
theorem c3_counterexample_not_a_timeout_error :
    (get_candles sampleAdapter "req-1" 1 "h1" 0 0 .timedOut).result ≠
      .error PyError.timeoutError ∧
    (get_candles sampleAdapter "req-1" 1 "h1" 0 0 .timedOut).result =
      .error (.exception "Timeout waiting for cTrader response") := by
  constructor
  · intro h
    simp [get_candles, sampleAdapter] at h
  · rfl

/-- C3 (amended): whenever a correlated request's deadline elapses with no
matching response having completed it, the pending entry is removed from
the table and the caller of get_symbol_details or get_candles observes a
raised exception — a plain Exception carrying a timeout message, not the
TimeoutError class. -/
theorem c3_timeout_removes_entry_and_raises
    (st : CTraderAdapter) (hauth : st.is_authorized = true)
    (rid : String) (ids : List Nat)
    (hmiss : ids.filter (fun sid => (alookup sid st.full_symbols).isNone) ≠ [])
    (rid₂ : String) (sym : Int) (per : String) (f t : Int) :
    alookup rid (get_symbol_details st rid ids .timedOut).state.pending = none ∧
    (get_symbol_details st rid ids .timedOut).result =
      .error (.exception "Timeout fetching symbol details") ∧
    alookup rid₂ (get_candles st rid₂ sym per f t .timedOut).state.pending = none ∧
    (get_candles st rid₂ sym per f t .timedOut).result =
      .error (.exception "Timeout waiting for cTrader response") := by
  refine ⟨?_, ?_, ?_, ?_⟩ <;>
    simp [get_symbol_details, get_candles, hauth, hmiss, timeout_pop, alookup_aerase]

theorem c3_witness :
    alookup "r1" (get_symbol_details sampleAdapter "r1" [1] .timedOut).state.pending = none ∧
    (get_symbol_details sampleAdapter "r1" [1] .timedOut).result =
      .error (.exception "Timeout fetching symbol details") ∧
    alookup "r2" (get_candles sampleAdapter "r2" 5 "d1" 0 9 .timedOut).state.pending = none ∧
    (get_candles sampleAdapter "r2" 5 "d1" 0 9 .timedOut).result =
      .error (.exception "Timeout waiting for cTrader response") :=
  c3_timeout_removes_entry_and_raises sampleAdapter rfl "r1" [1] (by decide) "r2" 5 "d1" 0 9

/-! ### Claim C10 -/

/-- C10: while the session is not account-authorized, get_symbol_details
and get_candles raise immediately — the result is the not-authorized
exception, the adapter state (pending table, symbol cache and all other
fields) is returned unchanged, and the trace is empty: no correlation id
is registered and nothing is handed to the reactor. -/
theorem c10_unauthorized_raises_without_state_change
    (st : CTraderAdapter) (h : st.is_authorized = false)
    (rid : String) (ids : List Nat) (out : AwaitOutcome SymbolsRes)
    (rid₂ : String) (sym : Int) (per : String) (f t : Int)
    (out₂ : AwaitOutcome TrendbarsRes) :
    get_symbol_details st rid ids out =
      ⟨.error (.exception "cTrader not authorized"), st, []⟩ ∧
    get_candles st rid₂ sym per f t out₂ =
      ⟨.error (.exception "cTrader not authorized yet"), st, []⟩ := by
  constructor <;> simp [get_symbol_details, get_candles, h]

theorem c10_witness :
    get_symbol_details { sampleAdapter with is_authorized := false } "r1" [1]
        (.result ⟨[]⟩) =
      ⟨.error (.exception "cTrader not authorized"),
       { sampleAdapter with is_authorized := false }, []⟩ ∧
    get_candles { sampleAdapter with is_authorized := false } "r2" 5 "m5" 0 9
        (.result ⟨[]⟩) =
      ⟨.error (.exception "cTrader not authorized yet"),
       { sampleAdapter with is_authorized := false }, []⟩ :=
  c10_unauthorized_raises_without_state_change
    { sampleAdapter with is_authorized := false } rfl "r1" [1] (.result ⟨[]⟩)
    "r2" 5 "m5" 0 9 (.result ⟨[]⟩)

/-! ### Claim C4 -/

/-- Well-formedness of the symbol cache: every entry is stored under the
id carried by its symbol. -/
def CacheWF (c : List (Nat × ProtoOASymbol)) : Prop :=
  ∀ p ∈ c, p.2.symbolId = p.1

instance (c : List (Nat × ProtoOASymbol)) : Decidable (CacheWF c) := by
  unfold CacheWF
  infer_instance

theorem mergeSymbols_wf (c : List (Nat × ProtoOASymbol)) (syms : List ProtoOASymbol)
    (h : CacheWF c) : CacheWF (mergeSymbols c syms) := by
  induction syms generalizing c with
  | nil => exact h
  | cons s rest ih =>
    refine ih (aset s.symbolId s c) ?_
    intro p hp
    rcases mem_aset hp with h₁ | h₁
    · subst h₁; rfl
    · exact h p h₁

theorem filterMap_alookup_map_symbolId (c : List (Nat × ProtoOASymbol))
    (hwf : CacheWF c) (ids : List Nat) :
    (ids.filterMap (fun sid => alookup sid c)).map (fun s => s.symbolId) =
      ids.filter (fun sid => (alookup sid c).isSome) := by
  induction ids with
  | nil => rfl
  | cons sid rest ih =>
    cases h : alookup sid c with
    | none => simp [List.filterMap_cons, h, List.filter_cons, ih]
    | some v =>
        have hv : v.symbolId = sid := hwf (sid, v) (alookup_mem h)
        simp [List.filterMap_cons, h, List.filter_cons, hv, ih]

theorem alookup_mergeSymbols_not_in_res (c : List (Nat × ProtoOASymbol))
    (syms : List ProtoOASymbol) (sid : Nat) (h : ∀ s ∈ syms, s.symbolId ≠ sid) :
    alookup sid (mergeSymbols c syms) = alookup sid c := by
  induction syms generalizing c with
  | nil => rfl
  | cons s rest ih =>
    have hs : s.symbolId ≠ sid := h s (List.mem_cons_self _ _)
    rw [show mergeSymbols c (s :: rest) = mergeSymbols (aset s.symbolId s c) rest from rfl]
    rw [ih (aset s.symbolId s c) fun q hq => h q (List.mem_cons_of_mem _ hq)]
    exact alookup_aset_ne s c (Ne.symm hs)

/-- Extracts the batched symbol id list from a trace entry when it is a
symbol-details send. -/
def sentSymbolIds : TraceAction → Option (List Nat)
  | .send _ (.symbolByIdReq _ sids) => some sids
  | _ => none

/-- C4: the entity-cache resolve operation.  If every requested id is
cached, the result is assembled from the cache and the trace is empty (no
request is issued).  Otherwise the trace carries exactly one batched
request whose id list is precisely the uncached ids in input order.  When
the response arrives, the call returns ok (never raises): the returned
symbols preserve the input order of ids, and any id absent from both the
prior cache and the response is silently omitted from the result. -/
theorem c4_resolve_cache_batching_order_omission
    (st : CTraderAdapter) (hauth : st.is_authorized = true)
    (hwf : CacheWF st.full_symbols)
    (rid : String) (ids : List Nat) (res : SymbolsRes) (out : AwaitOutcome SymbolsRes) :
    ((∀ sid ∈ ids, (alookup sid st.full_symbols).isSome) →
        (get_symbol_details st rid ids out).trace = [] ∧
        (get_symbol_details st rid ids out).result =
          .ok (ids.map (fun sid => (alookup sid st.full_symbols).getD default))) ∧
    (ids.filter (fun sid => (alookup sid st.full_symbols).isNone) ≠ [] →
        (get_symbol_details st rid ids out).trace.filterMap sentSymbolIds =
          [ids.filter (fun sid => (alookup sid st.full_symbols).isNone)]) ∧
    (ids.filter (fun sid => (alookup sid st.full_symbols).isNone) ≠ [] →
        ∃ l, (get_symbol_details st rid ids (.result res)).result = .ok l ∧
          l.map (fun s => s.symbolId) =
            ids.filter (fun sid =>
              (alookup sid (mergeSymbols st.full_symbols res.symbol)).isSome) ∧
          ∀ sid ∈ ids, alookup sid st.full_symbols = none →
            (∀ s ∈ res.symbol, s.symbolId ≠ sid) →
            sid ∉ l.map (fun s => s.symbolId)) := by
  refine ⟨?_, ?_, ?_⟩
  · intro hall
    have hnil : ids.filter (fun sid => (alookup sid st.full_symbols).isNone) = [] := by
      rw [List.filter_eq_nil_iff]
      intro sid hsid
      simp [Option.isNone_iff_eq_none]
      exact Option.isSome_iff_exists.mp (hall sid hsid) |>.elim fun v hv => by simp [hv]
    cases out <;> simp [get_symbol_details, hauth, hnil]
  · intro hmiss
    cases out <;> simp [get_symbol_details, hauth, hmiss, sentSymbolIds]
  · intro hmiss
    refine ⟨(ids.filterMap fun sid => alookup sid (mergeSymbols st.full_symbols res.symbol)),
      ?_, ?_, ?_⟩
    · simp [get_symbol_details, hauth, hmiss]
    · exact filterMap_alookup_map_symbolId _ (mergeSymbols_wf _ _ hwf) ids
    · intro sid hsid hnone hresp hmem
      rw [filterMap_alookup_map_symbolId _ (mergeSymbols_wf _ _ hwf) ids] at hmem
      have h₁ := List.of_mem_filter hmem
      rw [alookup_mergeSymbols_not_in_res st.full_symbols res.symbol sid hresp, hnone] at h₁
      simp at h₁

theorem c4_witness :
    (get_symbol_details sampleAdapter "r1" [1, 2, 3]
        (.result ⟨[⟨1, 10⟩]⟩)).trace.filterMap sentSymbolIds =
      [[1, 2, 3].filter (fun sid => (alookup sid sampleAdapter.full_symbols).isNone)] ∧
    ∃ l, (get_symbol_details sampleAdapter "r1" [1, 2, 3]
        (.result ⟨[⟨1, 10⟩]⟩)).result = .ok l ∧
      l.map (fun s => s.symbolId) =
        [1, 2, 3].filter (fun sid =>
          (alookup sid (mergeSymbols sampleAdapter.full_symbols [⟨1, 10⟩])).isSome) ∧
      ∀ sid ∈ [1, 2, 3], alookup sid sampleAdapter.full_symbols = none →
        (∀ s ∈ [(⟨1, 10⟩ : ProtoOASymbol)], s.symbolId ≠ sid) →
        sid ∉ l.map (fun s => s.symbolId) := by
  have h := c4_resolve_cache_batching_order_omission sampleAdapter rfl (by decide)
    "r1" [1, 2, 3] ⟨[⟨1, 10⟩]⟩ (.result ⟨[⟨1, 10⟩]⟩)
  exact ⟨h.2.1 (by decide), h.2.2 (by decide)⟩

/-! ### Claim C5 -/

theorem broadcastLoop_fst (run : Nat → Except String Unit) (l : List Nat) :
    (broadcastLoop run l).map Prod.fst = l := by
  induction l with
  | nil => rfl
  | cons cb rest ih => cases h : run cb <;> simp [broadcastLoop, h, ih]

theorem broadcastLoop_mem_error (run : Nat → Except String Unit) (l : List Nat)
    (cb : Nat) (e : String) (hcb : cb ∈ l) (herr : run cb = .error e) :
    (cb, some e) ∈ broadcastLoop run l := by
  induction l with
  | nil => simp at hcb
  | cons c rest ih =>
      rcases List.mem_cons.mp hcb with h₁ | h₁
      · subst h₁
        simp [broadcastLoop, herr]
      · cases hc : run c <;> simp [broadcastLoop, hc] <;>
          first
          | exact ih h₁
          | exact Or.inr (ih h₁)

/-- C5: dispatching an event for a topic iterates over the snapshot of the
current listener set of that topic and invokes every listener in it, in
order; a listener that raises has its error recorded as swallowed (the
function is total, so nothing propagates to the message loop), and which
listeners are invoked is independent of which listeners raise, so one
listener raising never prevents delivery to the others. -/
theorem c5_broadcast_delivers_to_all_swallowing_errors
    (st : DNSERealtimeManager) (symbol : String)
    (run run₂ : Nat → Except String Unit) :
    (broadcast st symbol run).map Prod.fst = (alookup symbol st.subscribers).getD [] ∧
    (broadcast st symbol run).map Prod.fst = (broadcast st symbol run₂).map Prod.fst ∧
    (∀ cb ∈ (alookup symbol st.subscribers).getD [],
       ∀ e, run cb = .error e → (cb, some e) ∈ broadcast st symbol run) := by
  have key : ∀ r : Nat → Except String Unit,
      (broadcast st symbol r).map Prod.fst = (alookup symbol st.subscribers).getD [] := by
    intro r
    cases h : alookup symbol st.subscribers with
    | none => simp [broadcast, h]
    | some listeners => simp [broadcast, h, broadcastLoop_fst]
  refine ⟨key run, (key run).trans (key run₂).symm, ?_⟩
  intro cb hcb e herr
  cases h : alookup symbol st.subscribers with
  | none => simp [h] at hcb
  | some listeners =>
      rw [h] at hcb
      simp only [Option.getD] at hcb
      simp only [broadcast, h]
      exact broadcastLoop_mem_error run listeners cb e hcb herr

/-! ### Claim C6 -/

theorem mem_setAdd {α : Type} [DecidableEq α] {x y : α} {l : List α} :
    x ∈ setAdd y l ↔ x = y ∨ x ∈ l := by
  unfold setAdd
  split
  · rename_i hy
    constructor
    · exact fun h => Or.inr h
    · rintro (rfl | h)
      · exact hy
      · exact h
  · simp [List.mem_append, or_comm]

theorem setAdd_ne_nil {α : Type} [DecidableEq α] (x : α) (l : List α) : setAdd x l ≠ [] := by
  unfold setAdd
  split
  · rename_i h
    intro hnil
    rw [hnil] at h
    simp at h
  · simp

theorem subscribe_fresh_fields (st : DNSERealtimeManager) (symbol : String) (cb : Nat)
    (hnone : alookup symbol st.subscribers = none) :
    (subscribe st symbol cb).1.subscribers = st.subscribers ++ [(symbol, [cb])] ∧
    (subscribe st symbol cb).1.active_subscriptions =
      setAdd symbol st.active_subscriptions := by
  have hlook : alookup symbol (st.subscribers ++ [(symbol, [])]) = some [] := by
    rw [alookup_append, hnone]
    simp [alookup]
  constructor
  · simp only [subscribe, hnone, Option.isNone_none, if_true]
    rw [hlook]
    simp only [Option.getD_some]
    show aset symbol (setAdd cb []) (st.subscribers ++ [(symbol, [])]) = _
    rw [show setAdd cb [] = [cb] from rfl]
    exact aset_append_fresh [cb] [] hnone
  · simp [subscribe, hnone]

theorem subscribe_existing_fields (st : DNSERealtimeManager) (symbol : String) (cb : Nat)
    (ls : List Nat) (hsome : alookup symbol st.subscribers = some ls) :
    (subscribe st symbol cb).1.subscribers = aset symbol (setAdd cb ls) st.subscribers ∧
    (subscribe st symbol cb).1.active_subscriptions = st.active_subscriptions := by
  constructor <;> simp [subscribe, hsome]

theorem registryInv_subscribe (st : DNSERealtimeManager) (symbol : String) (cb : Nat)
    (h : RegistryInv st) : RegistryInv (subscribe st symbol cb).1 := by
  obtain ⟨h₁, h₂, h₃⟩ := h
  cases hl : alookup symbol st.subscribers with
  | none =>
      obtain ⟨hsubs, hact⟩ := subscribe_fresh_fields st symbol cb hl
      refine ⟨?_, ?_, ?_⟩
      · intro p hp
        rw [hsubs] at hp
        rcases List.mem_append.mp hp with hp | hp
        · exact h₁ p hp
        · simp at hp
          simp [hp]
      · intro s hs
        rw [hact] at hs
        rw [hsubs, alookup_append]
        rcases mem_setAdd.mp hs with rfl | hs
        · simp [hl, alookup]
        · have := h₂ s hs
          cases hlk : alookup s st.subscribers with
          | none => rw [hlk] at this; simp at this
          | some v => simp
      · intro p hp
        rw [hsubs] at hp
        rw [hact]
        rcases List.mem_append.mp hp with hp | hp
        · exact mem_setAdd.mpr (Or.inr (h₃ p hp))
        · simp at hp
          subst hp
          exact mem_setAdd.mpr (Or.inl rfl)
  | some ls =>
      obtain ⟨hsubs, hact⟩ := subscribe_existing_fields st symbol cb ls hl
      refine ⟨?_, ?_, ?_⟩
      · intro p hp
        rw [hsubs] at hp
        rcases mem_aset hp with rfl | hp
        · exact setAdd_ne_nil cb ls
        · exact h₁ p hp
      · intro s hs
        rw [hact] at hs
        rw [hsubs]
        by_cases heq : s = symbol
        · subst heq
          rw [alookup_aset_self]
          simp
        · rw [alookup_aset_ne _ _ heq]
          exact h₂ s hs
      · intro p hp
        rw [hsubs] at hp
        rw [hact]
        rcases mem_aset hp with rfl | hp
        · exact h₃ (symbol, ls) (alookup_mem hl)
        · exact h₃ p hp

theorem registryInv_unsubscribe (st : DNSERealtimeManager) (symbol : String) (cb : Nat)
    (h : RegistryInv st) : RegistryInv (unsubscribe st symbol cb) := by
  obtain ⟨h₁, h₂, h₃⟩ := h
  cases hl : alookup symbol st.subscribers with
  | none => simpa [unsubscribe, hl] using ⟨h₁, h₂, h₃⟩
  | some ls =>
      by_cases hnil : ls.filter (fun c => c ≠ cb) = []
      · have hsubs : (unsubscribe st symbol cb).subscribers = aerase symbol st.subscribers := by
          simp only [unsubscribe, hl]
          rw [if_pos hnil]
        have hact : (unsubscribe st symbol cb).active_subscriptions =
            st.active_subscriptions.filter (fun s => s ≠ symbol) := by
          simp only [unsubscribe, hl]
          rw [if_pos hnil]
        refine ⟨?_, ?_, ?_⟩
        · intro p hp
          rw [hsubs] at hp
          exact h₁ p (mem_aerase hp).1
        · intro s hs
          rw [hact] at hs
          have hmem := List.mem_of_mem_filter hs
          have hne : s ≠ symbol := by
            have := List.of_mem_filter hs
            simpa using this
          rw [hsubs, alookup_aerase, if_neg hne]
          exact h₂ s hmem
        · intro p hp
          rw [hsubs] at hp
          rw [hact]
          obtain ⟨hmem, hne⟩ := mem_aerase hp
          refine List.mem_filter.mpr ⟨h₃ p hmem, ?_⟩
          simpa using hne
      · have hsubs : (unsubscribe st symbol cb).subscribers =
            aset symbol (ls.filter (fun c => c ≠ cb)) st.subscribers := by
          simp only [unsubscribe, hl]
          rw [if_neg hnil]
        have hact : (unsubscribe st symbol cb).active_subscriptions =
            st.active_subscriptions := by
          simp only [unsubscribe, hl]
          rw [if_neg hnil]
        refine ⟨?_, ?_, ?_⟩
        · intro p hp
          rw [hsubs] at hp
          rcases mem_aset hp with rfl | hp
          · exact hnil
          · exact h₁ p hp
        · intro s hs
          rw [hact] at hs
          rw [hsubs]
          by_cases heq : s = symbol
          · subst heq
            rw [alookup_aset_self]
            simp
          · rw [alookup_aset_ne _ _ heq]
            exact h₂ s hs
        · intro p hp
          rw [hsubs] at hp
          rw [hact]
          rcases mem_aset hp with rfl | hp
          · exact h₃ (symbol, ls) (alookup_mem hl)
          · exact h₃ p hp

theorem registryInv_applyOp (st : DNSERealtimeManager) (op : RegistryOp)
    (h : RegistryInv st) : RegistryInv (applyOp st op) := by
  cases op with
  | sub s cb => exact registryInv_subscribe st s cb h
  | unsub s cb => exact registryInv_unsubscribe st s cb h
  | connect rc =>
      by_cases hrc : rc = 0 <;> simp [applyOp, on_connect, hrc] <;> exact h
  | disconnect => exact h

theorem registryInv_runOps (st : DNSERealtimeManager) (h : RegistryInv st)
    (ops : List RegistryOp) : RegistryInv (runOps st ops) := by
  induction ops generalizing st with
  | nil => exact h
  | cons op rest ih => exact ih (applyOp st op) (registryInv_applyOp st op h)

theorem registryInv_empty : RegistryInv emptyManager := by decide

/-- A manager with one topic carrying two listeners, connected. -/
def sampleManager : DNSERealtimeManager :=
  { subscribers := [("VNM", [1, 2])], active_subscriptions := ["VNM"],
    is_connected := true, hasClient := true }

/-- C6: in every state of the registry reachable from the initial state by
subscribe / unsubscribe / connect / disconnect operations, the registry
invariant holds — in particular a topic whose listener set is empty has no
subscribers entry and is not flagged upstream-subscribed; and concretely,
subscribe(symbol, cb) followed by unsubscribe(symbol, cb) when cb is the
only listener (or the topic is fresh) leaves the registry with no listener
entry for the symbol and the symbol absent from active_subscriptions. -/
theorem c6_no_empty_listener_set_stays_flagged
    (ops : List RegistryOp)
    (st : DNSERealtimeManager) (symbol : String) (callback : Nat)
    (hsolo : alookup symbol st.subscribers = none ∨
             alookup symbol st.subscribers = some [callback]) :
    RegistryInv (runOps emptyManager ops) ∧
    (∀ s ∈ (runOps emptyManager ops).active_subscriptions,
       ∃ ls, alookup s (runOps emptyManager ops).subscribers = some ls ∧ ls ≠ []) ∧
    alookup symbol
        (unsubscribe (subscribe st symbol callback).1 symbol callback).subscribers = none ∧
    symbol ∉ (unsubscribe (subscribe st symbol callback).1 symbol
        callback).active_subscriptions := by
  have hinv := registryInv_runOps emptyManager registryInv_empty ops
  have hflag : ∀ s ∈ (runOps emptyManager ops).active_subscriptions,
      ∃ ls, alookup s (runOps emptyManager ops).subscribers = some ls ∧ ls ≠ [] := by
    intro s hs
    obtain ⟨h₁, h₂, h₃⟩ := hinv
    have hsome := h₂ s hs
    cases hlk : alookup s (runOps emptyManager ops).subscribers with
    | none => rw [hlk] at hsome; simp at hsome
    | some ls => exact ⟨ls, rfl, h₁ (s, ls) (alookup_mem hlk)⟩
  have hmid : alookup symbol (subscribe st symbol callback).1.subscribers =
      some [callback] := by
    rcases hsolo with hnone | hone
    · rw [(subscribe_fresh_fields st symbol callback hnone).1, alookup_append, hnone]
      simp [alookup]
    · rw [(subscribe_existing_fields st symbol callback [callback] hone).1,
        alookup_aset_self]
      simp [setAdd]
  have hfilter : ([callback].filter (fun c => c ≠ callback)) = [] := by simp
  have hsubs : (unsubscribe (subscribe st symbol callback).1 symbol callback).subscribers =
      aerase symbol (subscribe st symbol callback).1.subscribers := by
    simp only [unsubscribe, hmid]
    rw [if_pos hfilter]
  have hact : (unsubscribe (subscribe st symbol callback).1 symbol
      callback).active_subscriptions =
      (subscribe st symbol callback).1.active_subscriptions.filter
        (fun s => s ≠ symbol) := by
    simp only [unsubscribe, hmid]
    rw [if_pos hfilter]
  refine ⟨hinv, hflag, ?_, ?_⟩
  · rw [hsubs, alookup_aerase]
    simp
  · rw [hact]
    intro hmem
    have := List.of_mem_filter hmem
    simp at this

theorem c6_witness :
    RegistryInv (runOps emptyManager
      [RegistryOp.sub "VNM" 1, RegistryOp.unsub "VNM" 1]) ∧
    (∀ s ∈ (runOps emptyManager
        [RegistryOp.sub "VNM" 1, RegistryOp.unsub "VNM" 1]).active_subscriptions,
       ∃ ls, alookup s (runOps emptyManager
        [RegistryOp.sub "VNM" 1, RegistryOp.unsub "VNM" 1]).subscribers =
          some ls ∧ ls ≠ []) ∧
    alookup "HPG" (unsubscribe (subscribe sampleManager "HPG" 7).1 "HPG" 7).subscribers =
      none ∧
    "HPG" ∉ (unsubscribe (subscribe sampleManager "HPG" 7).1 "HPG" 7).active_subscriptions :=
  c6_no_empty_listener_set_stays_flagged
    [RegistryOp.sub "VNM" 1, RegistryOp.unsub "VNM" 1]
    sampleManager "HPG" 7 (Or.inl (by decide))

/-! ### Claim C7 -/

theorem flatten_map_singleton {α β : Type} (f : α → β) (l : List α) :
    (l.map (fun x => [f x])).flatten = l.map f := by
  induction l with
  | nil => rfl
  | cons x rest ih => simp [ih]

/-- C7: on a successful (re)connection (connect callback with result code
0), an upstream MQTT subscribe is issued for exactly the symbols in
active_subscriptions; under the registry invariant this covers every topic
that currently has at least one listener. -/
theorem c7_reconnect_replays_all_active_subscriptions
    (st : DNSERealtimeManager) (hcl : st.hasClient = true) (hinv : RegistryInv st) :
    (on_connect st 0).2 = st.active_subscriptions.map topic_tick ∧
    (∀ sym ls, alookup sym st.subscribers = some ls →
       topic_tick sym ∈ (on_connect st 0).2) := by
  have hsub : ∀ sym, subscribe_mqtt { st with is_connected := true } sym =
      [topic_tick sym] := fun sym => by simp [subscribe_mqtt, hcl]
  have hout : (on_connect st 0).2 = st.active_subscriptions.map topic_tick := by
    simp [on_connect, hsub, flatten_map_singleton]
  refine ⟨hout, ?_⟩
  intro sym ls hlk
  rw [hout]
  have hmem : sym ∈ st.active_subscriptions := hinv.2.2 (sym, ls) (alookup_mem hlk)
  exact List.mem_map_of_mem topic_tick hmem

theorem c7_witness :
    (on_connect sampleManager 0).2 = sampleManager.active_subscriptions.map topic_tick ∧
    (∀ sym ls, alookup sym sampleManager.subscribers = some ls →
       topic_tick sym ∈ (on_connect sampleManager 0).2) :=
  c7_reconnect_replays_all_active_subscriptions sampleManager rfl (by decide)

/-- A callback interpretation in which listener 1 raises and all others
succeed. -/
def sampleRun : Nat → Except String Unit :=
  fun cb => if cb = 1 then .error "boom" else .ok ()

/-- A callback interpretation in which every listener succeeds. -/
def sampleRunOk : Nat → Except String Unit := fun _ => .ok ()

theorem c5_witness :
    (broadcast sampleManager "VNM" sampleRun).map Prod.fst =
      (alookup "VNM" sampleManager.subscribers).getD [] ∧
    (broadcast sampleManager "VNM" sampleRun).map Prod.fst =
      (broadcast sampleManager "VNM" sampleRunOk).map Prod.fst ∧
    (1, some "boom") ∈ broadcast sampleManager "VNM" sampleRun := by
  have h := c5_broadcast_delivers_to_all_swallowing_errors sampleManager "VNM"
    sampleRun sampleRunOk
  exact ⟨h.1, h.2.1, h.2.2 1 (by decide) "boom" rfl⟩

/-! ### Claim C8 -/

/-- C8: a refresh request is issued exclusively for the two
authentication-expiry error codes; when one of them arrives and a refresh
credential is stored, exactly one refresh request is issued and it carries
the stored refresh credential; and a successful refresh response stores
the two new credentials on the adapter, persists them into config.json
when the file exists, and replays account authorization with the new
access token. -/
theorem c8_refresh_trigger_exclusive_and_persistent
    (st : CTraderAdapter) :
    (∀ cid p t, CtAction.sendRefreshTokenReq t ∈ (on_message_received st cid p).2.1 →
       ∃ code descr, p = .errorRes code descr ∧
         (code = "CH_ACCESS_TOKEN_INVALID" ∨ code = "OA_AUTH_TOKEN_EXPIRED") ∧
         t = st.refresh_token) ∧
    (st.refresh_token ≠ "" →
       ∀ cid code descr,
         (code = "CH_ACCESS_TOKEN_INVALID" ∨ code = "OA_AUTH_TOKEN_EXPIRED") →
         (on_message_received st cid (.errorRes code descr)).2.1 =
           [.sendRefreshTokenReq st.refresh_token]) ∧
    (∀ cid a r, a ≠ "" → st.account_id ≠ "" →
       (on_message_received st cid (.refreshTokenRes a r)).1.access_token = a ∧
       (on_message_received st cid (.refreshTokenRes a r)).1.refresh_token = r ∧
       (∀ data, st.cfgFile = some data →
          alookup "ctrader_access_token"
              (((on_message_received st cid (.refreshTokenRes a r)).1.cfgFile).getD []) =
            some a ∧
          alookup "ctrader_refresh_token"
              (((on_message_received st cid (.refreshTokenRes a r)).1.cfgFile).getD []) =
            some r) ∧
       (on_message_received st cid (.refreshTokenRes a r)).2.1 =
         [.sendAccountAuthReq a (intOf st.account_id)]) := by
  refine ⟨?_, ?_, ?_⟩
  · intro cid p t hmem
    simp only [on_message_received] at hmem
    cases p with
    | applicationAuthRes =>
        exfalso
        simp only [general_handlers, fetch_account_list, authorize_account] at hmem
        rcases List.mem_append.mp hmem with hmem | hmem <;>
          split at hmem <;> simp at hmem
    | getAccountsByAccessTokenRes => simp [general_handlers] at hmem
    | accountAuthRes =>
        exfalso
        simp only [general_handlers, fetch_symbols] at hmem
        split at hmem <;> simp at hmem
    | symbolsListRes syms => simp [general_handlers] at hmem
    | refreshTokenRes a r =>
        exfalso
        simp only [general_handlers, authorize_account] at hmem
        split at hmem <;> simp at hmem
    | errorRes code descr =>
        refine ⟨code, descr, rfl, ?_⟩
        simp only [general_handlers] at hmem
        split at hmem
        · simp only [refresh_access_token] at hmem
          split at hmem
          · simp at hmem
          · rename_i hcode _
            simp at hmem
            exact ⟨hcode, hmem⟩
        · simp at hmem
    | other => simp [general_handlers] at hmem
  · intro hrt cid code descr hcode
    simp [on_message_received, general_handlers, hcode, refresh_access_token, hrt]
  · intro cid a r ha hacct
    have hstate : (on_message_received st cid (.refreshTokenRes a r)).1 =
        (general_handlers
          { st with pending := (on_message_pending st.pending cid).1 }
          (.refreshTokenRes a r)).1 := rfl
    refine ⟨?_, ?_, ?_, ?_⟩
    · rw [hstate]
      simp only [general_handlers, update_tokens_in_file]
      cases st.cfgFile <;> simp
    · rw [hstate]
      simp only [general_handlers, update_tokens_in_file]
      cases st.cfgFile <;> simp
    · intro data hdata
      rw [hstate]
      simp only [general_handlers, update_tokens_in_file, hdata]
      constructor
      · simp only [Option.getD_some]
        rw [alookup_aset_ne _ _ (by decide), alookup_aset_self]
      · simp only [Option.getD_some]
        rw [alookup_aset_self]
    · simp only [on_message_received, general_handlers, update_tokens_in_file,
        authorize_account]
      cases hcfg : st.cfgFile <;> simp [ha, hacct]

theorem c8_witness :
    (on_message_received sampleAdapter ""
        (.errorRes "OA_AUTH_TOKEN_EXPIRED" "expired")).2.1 =
      [CtAction.sendRefreshTokenReq sampleAdapter.refresh_token] ∧
    (on_message_received sampleAdapter "" (.refreshTokenRes "acc2" "ref2")).1.access_token =
      "acc2" ∧
    (on_message_received sampleAdapter "" (.refreshTokenRes "acc2" "ref2")).1.refresh_token =
      "ref2" ∧
    alookup "ctrader_access_token"
        (((on_message_received sampleAdapter ""
          (.refreshTokenRes "acc2" "ref2")).1.cfgFile).getD []) = some "acc2" ∧
    alookup "ctrader_refresh_token"
        (((on_message_received sampleAdapter ""
          (.refreshTokenRes "acc2" "ref2")).1.cfgFile).getD []) = some "ref2" ∧
    (on_message_received sampleAdapter "" (.refreshTokenRes "acc2" "ref2")).2.1 =
      [CtAction.sendAccountAuthReq "acc2" (intOf sampleAdapter.account_id)] := by
  have h := c8_refresh_trigger_exclusive_and_persistent sampleAdapter
  have h₂ := h.2.1 (by decide) "" "OA_AUTH_TOKEN_EXPIRED" "expired" (Or.inr rfl)
  have h₃ := h.2.2 "" "acc2" "ref2" (by decide) (by decide)
  have hp := h₃.2.2.1
    [("ctrader_access_token", "acc-token"), ("ctrader_refresh_token", "ref-token")] rfl
  exact ⟨h₂, h₃.1, h₃.2.1, hp.1, hp.2, h₃.2.2.2⟩

/-! ### Claim C9 (corrected) -/

/-- A representative original config.json content (the exact bytes are
irrelevant; only that the old serialization is longer than the new one
and differs from it). -/
def oldCfgContent : FileContent :=
  "ctrader_access_token AAAAAAAAAAAAAAAA ctrader_refresh_token BBBBBBBBBBBBBBBB".toList

/-- A representative shorter re-serialization after the token update. -/
def newCfgContent : FileContent :=
  "ctrader_access_token A2 ctrader_refresh_token B2".toList

/-- C9 counterexample: update_tokens_in_file rewrites config.json in place
(open r+, seek 0, json.dump, truncate) rather than by
write-to-temp-then-replace or under a lock, so a concurrent reader can
observe a content that is neither the old nor the new file. -/
theorem c9_counterexample_partial_state_visible :
    ¬ NoPartialWriteVisible oldCfgContent newCfgContent := by
  intro h
  have hmid := h (overwrite_in_place oldCfgContent newCfgContent)
    (by simp [update_tokens_file_states])
  rcases hmid with hmid | hmid
  · exact absurd hmid (by decide)
  · exact absurd hmid (by decide)

/-- C9 (amended): the token write-back is an in-place read-modify-write;
the final content a reader sees after the update is the new
serialization, but the intermediate state after json.dump and before
truncate is also visible, and whenever the new serialization is shorter
than the old one and is not a prefix of it, that intermediate state
differs from both the old and the new content — a partially-written file
is visible to a concurrent reader. -/
theorem c9_in_place_write_exposes_intermediate
    (old new : FileContent) (h₁ : new.length < old.length)
    (h₂ : old.take new.length ≠ new) :
    (update_tokens_file_states old new).getLast? = some new ∧
    overwrite_in_place old new ∈ update_tokens_file_states old new ∧
    overwrite_in_place old new ≠ old ∧
    overwrite_in_place old new ≠ new := by
  refine ⟨rfl, by simp [update_tokens_file_states], ?_, ?_⟩
  · intro h
    have h₃ := congrArg (List.take new.length) h
    rw [show (overwrite_in_place old new).take new.length = new from by
      unfold overwrite_in_place
      exact List.take_left new (old.drop new.length)] at h₃
    exact h₂ h₃.symm
  · intro h
    have h₄ := congrArg List.length h
    unfold overwrite_in_place at h₄
    rw [List.length_append, List.length_drop] at h₄
    omega

theorem c9_witness :
    (update_tokens_file_states oldCfgContent newCfgContent).getLast? = some newCfgContent ∧
    overwrite_in_place oldCfgContent newCfgContent ∈
      update_tokens_file_states oldCfgContent newCfgContent ∧
    overwrite_in_place oldCfgContent newCfgContent ≠ oldCfgContent ∧
    overwrite_in_place oldCfgContent newCfgContent ≠ newCfgContent :=
  c9_in_place_write_exposes_intermediate oldCfgContent newCfgContent
    (by decide) (by decide)
